import Mathlib

/-!
Shallow embedding of the component discovery-and-dispatch engine of the
http-discord repository (source file: src/lib/core/bot/components.ts).

The embedding models:
- the category classifier (local function getCategory inside runComponent),
- the dispatcher returned by setupComponents (runComponent),
- the startup loader fetchComponents (directory probe, file walk results,
  dynamic module loading, category derivation from the path, name
  derivation from the base name, first-wins duplicate suppression),
- setupComponents itself (propagating any fetchComponents failure).

Effects are made explicit:
- console warnings become values of LogMsg,
- a thrown / rejected value becomes Except.error,
- the settled outcome of a handler callback becomes HandlerResult,
- the observable behaviour of one dispatch call becomes DispatchOutcome.
The filesystem interaction is a parameter (structure FS): the result of
the two Deno.readDirSync probes and the list of files produced by the
recursive walk (which the source filters to ".ts" files, directories
excluded).
-/

namespace HttpDiscord

/- Numeric values of the ComponentType enumeration of discord-api-types/v10,
as used by the switch in getCategory. -/
namespace ComponentType

def ActionRow : Nat := 1

def Button : Nat := 2

def StringSelect : Nat := 3

def TextInput : Nat := 4

def UserSelect : Nat := 5

def RoleSelect : Nat := 6

def MentionableSelect : Nat := 7

def ChannelSelect : Nat := 8

end ComponentType

/-- The settled outcome of awaiting Promise.resolve(component.default(interaction)):
either it fulfils (value discarded by the dispatcher) or it throws
synchronously / rejects with an error value. -/
inductive HandlerResult
  | success
  | failure (err : String)

/-- The data field of an inbound interaction. custom_id models
interaction.data.custom_id; component_type models
interaction.data.component_type, which is absent (none) for modal
submissions. -/
structure InteractionData where
  custom_id : String
  component_type : Option Nat

/-- An inbound interaction event (MessageComponentInteraction or
ModalSubmitInteraction); the engine only reads its data field. -/
structure Interaction where
  data : InteractionData

/-- One registry record, mirroring the Component record built in
fetchComponents: derived name, category string, and the module's default
export as callback. -/
structure Component where
  name : String
  category : String
  callback : Interaction → HandlerResult

/-- components.ts line 104: const validComponentCategories. -/
def validComponentCategories : List String := ["buttons", "modals", "selects"]

/-- The local getCategory function of runComponent (components.ts lines
60-75): a switch on interaction.data.component_type. Button maps to
"buttons"; the five select kinds (channel / role / user / string /
mentionable) fall through to "selects"; every other value, including an
absent field (a modal submission, where the switch scrutinee is
undefined), hits the default branch "modals". -/
def getCategory (interaction : Interaction) : String :=
  match interaction.data.component_type with
  | none => "modals"
  | some t =>
    if t = ComponentType.Button then "buttons"
    else if t = ComponentType.ChannelSelect then "selects"
    else if t = ComponentType.RoleSelect then "selects"
    else if t = ComponentType.UserSelect then "selects"
    else if t = ComponentType.StringSelect then "selects"
    else if t = ComponentType.MentionableSelect then "selects"
    else "modals"

/-- The observable behaviour of one dispatch call (runComponent):
either no record matched (a not-found warning naming the custom_id is
logged and the call returns), or the matched component's callback ran and
fulfilled, or it threw / rejected and the error was caught and logged
attributed to that component. In every case the call itself resolves:
runComponent is a total function into this type. -/
inductive DispatchOutcome
  | notFound (customId : String)
  | ranOk (c : Component)
  | ranErr (c : Component) (err : String)

/-- The dispatcher returned by setupComponents (components.ts lines
55-97): classify the event, look up the first record whose name equals
the event's custom_id and whose category equals the classified category,
warn and return if none, otherwise await the callback, catching and
logging any failure locally. -/
def runComponent (components : List Component) (interaction : Interaction) :
    DispatchOutcome :=
  let category := getCategory interaction
  match components.find?
      (fun c => c.name == interaction.data.custom_id && c.category == category) with
  | none => DispatchOutcome.notFound interaction.data.custom_id
  | some component =>
    match component.callback interaction with
    | HandlerResult.success => DispatchOutcome.ranOk component
    | HandlerResult.failure e => DispatchOutcome.ranErr component e

/-- The component a dispatch call actually invoked, if any. -/
def invokedComponent : DispatchOutcome → Option Component
  | DispatchOutcome.notFound _ => none
  | DispatchOutcome.ranOk c => some c
  | DispatchOutcome.ranErr c _ => some c

/-- A sequence of dispatch calls against the same immutable registry.
The registry is captured by closure and never mutated, and each call
only reads it, so a sequence of calls is the pointwise image of the
single-call function. -/
def runAll (components : List Component) (events : List Interaction) :
    List DispatchOutcome :=
  events.map (runComponent components)

/-- An error raised by a Deno.readDirSync probe: Deno.errors.NotFound or
anything else. -/
inductive FsError
  | notFound
  | other (msg : String)
deriving DecidableEq

/-- The warnings fetchComponents can emit on the console. -/
inductive LogMsg
  | missingRootDir
  | unknownCategory (name : String)
  | duplicateComponent (category : String) (name : String)
deriving DecidableEq

/-- One entry yielded by walk("./src/components"): its path (slash- or
backslash-separated, starting with the root segments), its base name,
and the result of dynamically loading it as a module — either the thrown
error or the module's default export. -/
structure FileEntry where
  path : String
  name : String
  importResult : Except String (Interaction → HandlerResult)

/-- The filesystem as fetchComponents observes it: the result of probing
the root directory, the result of probing each category subdirectory,
and the entries produced by the recursive walk (".ts" files only,
directories excluded). -/
structure FS where
  rootProbe : Except FsError Unit
  catProbe : String → Except FsError Unit
  files : List FileEntry

/-- Helper for jsSplit: walk the characters, cutting at every separator;
acc holds the characters of the current piece in reverse. -/
def jsSplitAux (p : Char → Bool) : List Char → List Char → List String
  | [], acc => [String.mk acc.reverse]
  | c :: cs, acc =>
    if p c then String.mk acc.reverse :: jsSplitAux p cs []
    else jsSplitAux p cs (c :: acc)

/-- JS String.prototype.split against a single-character separator class:
every separator occurrence cuts, empty pieces are kept, and the result is
never empty (splitting "" gives [""], as in JS). -/
def jsSplit (s : String) (p : Char → Bool) : List String :=
  jsSplitAux p s.data []

/-- file.path.split on slash or backslash (the regex split at
components.ts line 145). -/
def splitPath (s : String) : List String :=
  jsSplit s (fun c => c == '/' || c == '\\')

/-- file.name.split(".")[0] (components.ts lines 150 and 157): the
portion of the base name before the first dot. A split result is never
empty, so index 0 always exists. -/
def nameHead (s : String) : String :=
  (jsSplit s (fun c => c == '.')).headD ""

/-- file.path.split(/[\\\/]/)[2]: the third path segment, absent
(undefined in the source) when the path has fewer than three segments. -/
def categoryOf (f : FileEntry) : Option String :=
  (splitPath f.path)[2]?

/-- Whether a probe succeeded (used only for the advisory
presentCategories computation, which the source never reads). -/
def probeOk {ε α : Type} : Except ε α → Bool
  | Except.ok _ => true
  | Except.error _ => false

/-- The loop body of fetchComponents (components.ts lines 135-177),
processing the walked files in order with the accumulated registry and
warnings. For each file: dynamically load it (a thrown error propagates
and aborts the whole load); read the third path segment as category,
skipping the file with a warning when it is absent or not one of the
three valid names; derive the name; skip with a warning when a record
with the same name and category was already accumulated; otherwise push
the record. -/
def loadFiles : List FileEntry → List Component → List LogMsg →
    Except String (List Component × List LogMsg)
  | [], acc, logs => Except.ok (acc, logs)
  | f :: rest, acc, logs =>
    match f.importResult with
    | Except.error e => Except.error e
    | Except.ok cb =>
      match categoryOf f with
      | none => loadFiles rest acc (logs ++ [LogMsg.unknownCategory (nameHead f.name)])
      | some category =>
        if validComponentCategories.contains category then
          let comp : Component :=
            { name := nameHead f.name, category := category, callback := cb }
          if (acc.find?
              (fun c => c.name == comp.name && c.category == category)).isSome then
            loadFiles rest acc
              (logs ++ [LogMsg.duplicateComponent category comp.name])
          else
            loadFiles rest (acc ++ [comp]) logs
        else
          loadFiles rest acc (logs ++ [LogMsg.unknownCategory (nameHead f.name)])

/-- fetchComponents (components.ts lines 106-180). If probing the root
directory throws anything, return an empty registry, warning only when
the error is Deno.errors.NotFound. Otherwise probe the category
subdirectories (advisory only: the result is never used) and process the
walked files. -/
def fetchComponents (fs : FS) :
    Except String (List Component × List LogMsg) :=
  match fs.rootProbe with
  | Except.error err =>
    Except.ok ([],
      if err = FsError.notFound then [LogMsg.missingRootDir] else [])
  | Except.ok _ =>
    let _presentCategories :=
      validComponentCategories.filter (fun c => probeOk (fs.catProbe c))
    loadFiles fs.files [] []

/-- setupComponents (components.ts lines 17-102): run fetchComponents;
on success return the runComponent closure over the registry; any error
thrown during the fetch is re-thrown to the caller (the catch block only
settles the cosmetic loader before re-throwing). -/
def setupComponents (fs : FS) :
    Except String (Interaction → DispatchOutcome) :=
  match fetchComponents fs with
  | Except.error e => Except.error e
  | Except.ok (components, _logs) => Except.ok (runComponent components)

/-! Auxiliary definitions used to state properties of the loader. -/

/-- The record each walked file would contribute, in scan order, before
duplicate suppression: files whose import fails or whose third path
segment is not a valid category contribute nothing. -/
def derivedRecords : List FileEntry → List Component
  | [] => []
  | f :: rest =>
    match f.importResult with
    | Except.error _ => derivedRecords rest
    | Except.ok cb =>
      match categoryOf f with
      | none => derivedRecords rest
      | some category =>
        if validComponentCategories.contains category then
          { name := nameHead f.name, category := category, callback := cb } ::
            derivedRecords rest
        else derivedRecords rest

/-- First-wins deduplication by the (name, category) key, folding new
records into an accumulator exactly as the loop of fetchComponents does. -/
def dedupInto (acc : List Component) : List Component → List Component
  | [] => acc
  | d :: rest =>
    if (acc.find? (fun c => c.name == d.name && c.category == d.category)).isSome then
      dedupInto acc rest
    else dedupInto (acc ++ [d]) rest

/-- Two records differ on the (name, category) key. -/
def keyDiff (a b : Component) : Prop :=
  ¬(a.name = b.name ∧ a.category = b.category)

/-- The lookup predicate for the (name, category) key of a record. -/
def keyIs (c : Component) : Component → Bool :=
  fun x => x.name == c.name && x.category == c.category

theorem loadFiles_ok_comps : ∀ {files : List FileEntry} {acc : List Component}
    {logs : List LogMsg} {comps : List Component} {logs' : List LogMsg},
    loadFiles files acc logs = Except.ok (comps, logs') →
    comps = dedupInto acc (derivedRecords files) := by
  intro files
  induction files with
  | nil =>
    intro acc logs comps logs' h
    simp only [loadFiles, Except.ok.injEq, Prod.mk.injEq] at h
    simp [dedupInto, derivedRecords, h.1]
  | cons f rest ih =>
    intro acc logs comps logs' h
    simp only [loadFiles] at h
    simp only [derivedRecords]
    split at h
    · exact absurd h (by simp)
    · split at h
      · exact ih h
      · rename_i category hcat
        split at h
        · rename_i hval
          rw [if_pos hval]
          split at h
          · rename_i hdup
            simp only [dedupInto]
            rw [if_pos (by simpa using hdup)]
            exact ih h
          · rename_i hdup
            simp only [dedupInto]
            rw [if_neg (by simpa using hdup)]
            exact ih h
        · rename_i hval
          rw [if_neg hval]
          exact ih h

theorem mem_dedupInto {c : Component} : ∀ {l acc : List Component},
    c ∈ dedupInto acc l → c ∈ acc ∨ c ∈ l := by
  intro l
  induction l with
  | nil =>
    intro acc h
    simp only [dedupInto] at h
    exact Or.inl h
  | cons d rest ih =>
    intro acc h
    simp only [dedupInto] at h
    split at h
    · rcases ih h with h' | h'
      · exact Or.inl h'
      · exact Or.inr (List.mem_cons_of_mem _ h')
    · rcases ih h with h' | h'
      · rcases List.mem_append.mp h' with h'' | h''
        · exact Or.inl h''
        · simp only [List.mem_singleton] at h''
          exact Or.inr (h'' ▸ List.mem_cons_self _ _)
      · exact Or.inr (List.mem_cons_of_mem _ h')

theorem keyIs_congr {c d : Component} (hn : d.name = c.name)
    (hc : d.category = c.category) : keyIs c = keyIs d := by
  funext x
  simp [keyIs, hn, hc]

theorem dedupInto_find {c : Component} : ∀ {l acc : List Component},
    c ∈ dedupInto acc l →
    c ∈ acc ∨ (acc.find? (keyIs c) = none ∧ l.find? (keyIs c) = some c) := by
  intro l
  induction l with
  | nil =>
    intro acc h
    simp only [dedupInto] at h
    exact Or.inl h
  | cons d rest ih =>
    intro acc h
    simp only [dedupInto] at h
    split at h
    · rename_i hdup
      rcases ih h with h' | ⟨hnone, hfind⟩
      · exact Or.inl h'
      · refine Or.inr ⟨hnone, ?_⟩
        have hne : ¬(keyIs c d = true) := by
          intro hkey
          simp only [keyIs, Bool.and_eq_true, beq_iff_eq] at hkey
          rw [keyIs_congr hkey.1 hkey.2] at hnone
          have hdup' : (acc.find? (keyIs d)).isSome = true := hdup
          rw [hnone] at hdup'
          simp at hdup'
        rw [List.find?_cons_of_neg _ hne]
        exact hfind
    · rename_i hdup
      rcases ih h with h' | ⟨hnone, hfind⟩
      · rcases List.mem_append.mp h' with h'' | h''
        · exact Or.inl h''
        · simp only [List.mem_singleton] at h''
          subst h''
          refine Or.inr ⟨?_, ?_⟩
          · have hd := Option.not_isSome_iff_eq_none.mp hdup
            simpa [keyIs] using hd
          · rw [List.find?_cons_of_pos _ (by simp [keyIs])]
      · rw [List.find?_append, Option.or_eq_none] at hnone
        rcases hnone with ⟨hacc, hd⟩
        refine Or.inr ⟨hacc, ?_⟩
        have hne : ¬(keyIs c d = true) := by
          intro hkey
          rw [List.find?_cons_of_pos _ hkey] at hd
          exact absurd hd (by simp)
        rw [List.find?_cons_of_neg _ hne]
        exact hfind


theorem dedupInto_pairwise : ∀ {l acc : List Component},
    acc.Pairwise keyDiff → (dedupInto acc l).Pairwise keyDiff := by
  intro l
  induction l with
  | nil =>
    intro acc hacc
    simpa [dedupInto] using hacc
  | cons d rest ih =>
    intro acc hacc
    simp only [dedupInto]
    split
    · exact ih hacc
    · rename_i hdup
      refine ih (List.pairwise_append.mpr ⟨hacc, List.pairwise_singleton _ _, ?_⟩)
      intro a ha b hb
      simp only [List.mem_singleton] at hb
      subst hb
      have hnone := Option.not_isSome_iff_eq_none.mp hdup
      have := List.find?_eq_none.mp hnone a ha
      simp only [Bool.and_eq_true, beq_iff_eq, not_and] at this
      intro hkey
      exact this hkey.1 hkey.2

theorem name_of_mem_derivedRecords {c : Component} : ∀ {files : List FileEntry},
    c ∈ derivedRecords files → ∃ f ∈ files, c.name = nameHead f.name := by
  intro files
  induction files with
  | nil =>
    intro h
    simp [derivedRecords] at h
  | cons f rest ih =>
    intro h
    simp only [derivedRecords] at h
    split at h
    · rcases ih h with ⟨g, hg, hname⟩
      exact ⟨g, List.mem_cons_of_mem _ hg, hname⟩
    · split at h
      · rcases ih h with ⟨g, hg, hname⟩
        exact ⟨g, List.mem_cons_of_mem _ hg, hname⟩
      · split at h
        · rcases List.mem_cons.mp h with h' | h'
          · exact ⟨f, List.mem_cons_self _ _, by rw [h']⟩
          · rcases ih h' with ⟨g, hg, hname⟩
            exact ⟨g, List.mem_cons_of_mem _ hg, hname⟩
        · rcases ih h with ⟨g, hg, hname⟩
          exact ⟨g, List.mem_cons_of_mem _ hg, hname⟩

theorem loadFiles_error_of_mem : ∀ {files : List FileEntry} {acc : List Component}
    {logs : List LogMsg} {f : FileEntry} {e : String},
    f ∈ files → f.importResult = Except.error e →
    ∃ e', loadFiles files acc logs = Except.error e' := by
  intro files
  induction files with
  | nil =>
    intro acc logs f e hmem _
    simp at hmem
  | cons g rest ih =>
    intro acc logs f e hmem herr
    rcases List.mem_cons.mp hmem with h' | h'
    · subst h'
      exact ⟨e, by simp [loadFiles, herr]⟩
    · cases himp : g.importResult with
      | error e'' => exact ⟨e'', by simp [loadFiles, himp]⟩
      | ok cb =>
        cases hcat : categoryOf g with
        | none =>
          simp only [loadFiles, himp, hcat]
          exact ih h' herr
        | some category =>
          simp only [loadFiles, himp, hcat]
          by_cases hval : validComponentCategories.contains category = true
          · rw [if_pos hval]
            by_cases hdup : (acc.find?
                (fun c => c.name == nameHead g.name && c.category == category)).isSome = true
            · rw [if_pos hdup]
              exact ih h' herr
            · rw [if_neg hdup]
              exact ih h' herr
          · rw [if_neg hval]
            exact ih h' herr

/-! Concrete sample data used by the witness theorems. -/

/-- A sample button handler whose callback fulfils. -/
def exButton : Component :=
  { name := "x", category := "buttons", callback := fun _ => HandlerResult.success }

/-- A sample button handler whose callback rejects with "boom". -/
def exFailing : Component :=
  { name := "f", category := "buttons", callback := fun _ => HandlerResult.failure "boom" }

/-- A button-click event with custom_id "x". -/
def exButtonEvent : Interaction := ⟨⟨"x", some ComponentType.Button⟩⟩

/-- A button-click event with custom_id "f". -/
def exFailEvent : Interaction := ⟨⟨"f", some ComponentType.Button⟩⟩

/-- Claim C1: the dispatcher invokes a handler only when the event's
custom_id equals the handler's name and the category classified from the
event's component-kind discriminator equals the handler's category; in
particular a handler registered under "buttons" is never invoked by an
event classified as "selects" or "modals", even with the same custom_id. -/
theorem C1_category_fidelity (components : List Component) (i : Interaction)
    (c : Component)
    (h : invokedComponent (runComponent components i) = some c) :
    c ∈ components ∧ c.name = i.data.custom_id ∧ c.category = getCategory i ∧
      (getCategory i ≠ "buttons" → c.category ≠ "buttons") := by
  simp only [runComponent] at h
  split at h
  · simp [invokedComponent] at h
  · rename_i comp hfind
    have hc : comp = c := by
      split at h <;> simpa [invokedComponent] using h
    subst hc
    have hpred := List.find?_some hfind
    simp only [Bool.and_eq_true, beq_iff_eq] at hpred
    refine ⟨List.mem_of_find?_eq_some hfind, hpred.1, hpred.2, ?_⟩
    intro hne hcat
    exact hne (hpred.2 ▸ hcat)

/-- Witness for C1 at a concrete registry and event: the invoked handler
matches on both key and category. -/
theorem C1_category_fidelity_witness :
    exButton ∈ [exButton] ∧ exButton.name = exButtonEvent.data.custom_id ∧
      exButton.category = getCategory exButtonEvent ∧
      (getCategory exButtonEvent ≠ "buttons" → exButton.category ≠ "buttons") :=
  C1_category_fidelity [exButton] exButtonEvent exButton rfl

/-- Claim C2: when the matched callback throws or rejects, the dispatch
call catches the failure, attributes it to that handler (the ranErr
outcome names the handler), and itself resolves — runComponent is total,
so no error propagates; and since the registry is immutable and each call
is a pure function of its own event, a failing call leaves every other
dispatch in a sequence with exactly the outcome it would have alone. -/
theorem C2_failure_isolated (components : List Component) (i : Interaction)
    (c : Component) (e : String)
    (hfind : components.find?
      (fun x => x.name == i.data.custom_id && x.category == getCategory i) = some c)
    (hfail : c.callback i = HandlerResult.failure e) :
    runComponent components i = DispatchOutcome.ranErr c e ∧
      ∀ (pre post : List Interaction),
        runAll components (pre ++ i :: post) =
          runAll components pre ++ DispatchOutcome.ranErr c e :: runAll components post := by
  have h1 : runComponent components i = DispatchOutcome.ranErr c e := by
    simp only [runComponent]
    rw [hfind]
    simp [hfail]
  exact ⟨h1, fun pre post => by simp [runAll, h1]⟩

/-- Witness for C2: a rejecting handler yields a caught, attributed error
outcome, and surrounding dispatches are unaffected. -/
theorem C2_failure_isolated_witness :
    runComponent [exFailing] exFailEvent = DispatchOutcome.ranErr exFailing "boom" ∧
      runAll [exFailing] ([exButtonEvent] ++ exFailEvent :: [exButtonEvent]) =
        runAll [exFailing] [exButtonEvent] ++
          DispatchOutcome.ranErr exFailing "boom" :: runAll [exFailing] [exButtonEvent] := by
  have h := C2_failure_isolated [exFailing] exFailEvent exFailing "boom" rfl rfl
  exact ⟨h.1, h.2 [exButtonEvent] [exButtonEvent]⟩

/-- Claim C8: an event whose (custom_id, classified category) pair matches
no registry record produces the not-found outcome — a logged non-fatal
notice carrying the custom_id — and invokes no callback; the call
resolves, as runComponent is total. -/
theorem C8_not_found_noop (components : List Component) (i : Interaction)
    (h : components.find?
      (fun c => c.name == i.data.custom_id && c.category == getCategory i) = none) :
    runComponent components i = DispatchOutcome.notFound i.data.custom_id ∧
      invokedComponent (runComponent components i) = none := by
  have h1 : runComponent components i = DispatchOutcome.notFound i.data.custom_id := by
    simp only [runComponent]
    rw [h]
  exact ⟨h1, by rw [h1]; rfl⟩

/-- Witness for C8 on an empty registry and a modal event. -/
theorem C8_not_found_noop_witness :
    runComponent [] ⟨⟨"z", none⟩⟩ = DispatchOutcome.notFound "z" ∧
      invokedComponent (runComponent [] ⟨⟨"z", none⟩⟩) = none :=
  C8_not_found_noop [] ⟨⟨"z", none⟩⟩ rfl

/-- The select-menu component kinds the spec lists for the "selects"
category: channel, role, user, string and mentionable select. -/
def selectKinds : List Nat :=
  [ComponentType.ChannelSelect, ComponentType.RoleSelect, ComponentType.UserSelect,
   ComponentType.StringSelect, ComponentType.MentionableSelect]

/-- The classifier as the spec words it (spec section 4.1), defined for
comparison with the source's getCategory: the Button kind maps to
"buttons", any select-menu kind maps to "selects", and every other kind —
including an absent component-kind field, as for modal submissions — maps
to "modals". -/
def specCategoryOfKind : Option Nat → String
  | none => "modals"
  | some k =>
    if k = ComponentType.Button then "buttons"
    else if k ∈ selectKinds then "selects"
    else "modals"

/-- Claim C5: for every component-kind discriminator value the classifier
agrees with the spec's policy and returns exactly one of the three closed
category values: Button to "buttons", each select kind to "selects",
everything else — including an absent discriminator — to "modals". -/
theorem C5_classifier_total (i : Interaction) :
    getCategory i = specCategoryOfKind i.data.component_type ∧
      getCategory i ∈ validComponentCategories ∧
      (i.data.component_type = some ComponentType.Button → getCategory i = "buttons") ∧
      (∀ k ∈ selectKinds, i.data.component_type = some k → getCategory i = "selects") ∧
      ((∀ k ∈ selectKinds, i.data.component_type ≠ some k) →
        i.data.component_type ≠ some ComponentType.Button → getCategory i = "modals") := by
  rcases i with ⟨⟨cid, ct⟩⟩
  cases ct with
  | none =>
    simp [getCategory, specCategoryOfKind, validComponentCategories]
  | some k =>
    simp only [getCategory, specCategoryOfKind, selectKinds, validComponentCategories,
      ComponentType.Button, ComponentType.ChannelSelect, ComponentType.RoleSelect,
      ComponentType.UserSelect, ComponentType.StringSelect, ComponentType.MentionableSelect,
      List.mem_cons, List.not_mem_nil, or_false, Option.some.injEq, List.mem_singleton]
    split_ifs <;> simp_all

/-- Witness for C5 at three concrete events: a button click, a string
select, and a modal submission (absent discriminator). -/
theorem C5_classifier_total_witness :
    getCategory ⟨⟨"b", some 2⟩⟩ = "buttons" ∧
      getCategory ⟨⟨"s", some 3⟩⟩ = "selects" ∧
      getCategory ⟨⟨"m", none⟩⟩ = "modals" :=
  ⟨(C5_classifier_total ⟨⟨"b", some 2⟩⟩).2.2.1 rfl,
   (C5_classifier_total ⟨⟨"s", some 3⟩⟩).2.2.2.1 3 (by decide) rfl,
   (C5_classifier_total ⟨⟨"m", none⟩⟩).2.2.2.2 (by simp) (by simp)⟩

/-- Claim C3: the built registry holds at most one record per
(name, category) key — the keys are pairwise distinct; the record kept
for each key is the first one the scan derived in order (its lookup in
the scan-ordered derived records returns that very record); and the loop
skips a later duplicate while appending exactly one non-fatal duplicate
warning and continuing with the remaining files. -/
theorem C3_duplicate_suppression :
    (∀ (fs : FS) (comps : List Component) (logs : List LogMsg),
      fetchComponents fs = Except.ok (comps, logs) →
      comps.Pairwise keyDiff ∧
        ∀ c ∈ comps, (derivedRecords fs.files).find? (keyIs c) = some c) ∧
    (∀ (f : FileEntry) (rest : List FileEntry) (acc : List Component)
      (logs : List LogMsg) (cb : Interaction → HandlerResult) (category : String),
      f.importResult = Except.ok cb →
      categoryOf f = some category →
      validComponentCategories.contains category = true →
      (acc.find? (fun c => c.name == nameHead f.name && c.category == category)).isSome = true →
      loadFiles (f :: rest) acc logs =
        loadFiles rest acc (logs ++ [LogMsg.duplicateComponent category (nameHead f.name)])) := by
  constructor
  · intro fs comps logs h
    simp only [fetchComponents] at h
    split at h
    · simp only [Except.ok.injEq, Prod.mk.injEq] at h
      rw [← h.1]
      exact ⟨List.Pairwise.nil, by simp⟩
    · have hcomps := loadFiles_ok_comps h
      constructor
      · exact hcomps ▸ dedupInto_pairwise List.Pairwise.nil
      · intro c hc
        rw [hcomps] at hc
        rcases dedupInto_find hc with h' | ⟨_, hfind⟩
        · simp at h'
        · exact hfind
  · intro f rest acc logs cb category himp hcat hval hdup
    simp only [loadFiles, himp, hcat]
    rw [if_pos hval, if_pos hdup]

/-- Two files in the buttons directory deriving the same name "a". -/
def dupFileA : FileEntry :=
  ⟨"src/components/buttons/a.ts", "a.ts", Except.ok (fun _ => HandlerResult.success)⟩

/-- A nested duplicate of dupFileA (same derived name and category). -/
def dupFileB : FileEntry :=
  ⟨"src/components/buttons/sub/a.ts", "a.ts", Except.ok (fun _ => HandlerResult.failure "x")⟩

/-- A filesystem whose walk yields the two duplicate files in order. -/
def fsDup : FS := ⟨Except.ok (), fun _ => Except.ok (), [dupFileA, dupFileB]⟩

/-- The record dupFileA contributes. -/
def compA : Component :=
  { name := "a", category := "buttons", callback := fun _ => HandlerResult.success }

/-- Witness for C3 on a registry with a genuine duplicate: the single kept
record is the first-scanned one, its key is unique, and the skip step
emitted the duplicate warning. -/
theorem C3_duplicate_suppression_witness :
    ([compA].Pairwise keyDiff ∧
      ∀ c ∈ [compA], (derivedRecords fsDup.files).find? (keyIs c) = some c) ∧
      loadFiles [dupFileB] [compA] [] =
        loadFiles [] [compA] ([] ++ [LogMsg.duplicateComponent "buttons" "a"]) := by
  constructor
  · exact (C3_duplicate_suppression.1 fsDup [compA]
      [LogMsg.duplicateComponent "buttons" "a"] rfl)
  · exact (C3_duplicate_suppression.2 dupFileB [] [compA] []
      (fun _ => HandlerResult.failure "x") "buttons" rfl rfl (by decide) (by decide))

/-- Claim C4: if any walked source file throws during dynamic import, the
startup operation rejects — fetchComponents propagates the thrown error
and setupComponents re-throws it — so no dispatcher function and no
partially populated registry is ever returned. -/
theorem C4_load_failure_fatal (fs : FS) (f : FileEntry) (e : String)
    (hroot : fs.rootProbe = Except.ok ())
    (hmem : f ∈ fs.files) (herr : f.importResult = Except.error e) :
    (∃ e', fetchComponents fs = Except.error e') ∧
      ∃ e', setupComponents fs = Except.error e' := by
  obtain ⟨e', hload⟩ := @loadFiles_error_of_mem fs.files [] [] f e hmem herr
  have hfetch : fetchComponents fs = Except.error e' := by
    simp only [fetchComponents, hroot]
    exact hload
  exact ⟨⟨e', hfetch⟩, ⟨e', by simp [setupComponents, hfetch]⟩⟩

/-- A walked file whose dynamic import throws. -/
def badFile : FileEntry := ⟨"src/components/buttons/bad.ts", "bad.ts", Except.error "boom"⟩

/-- A filesystem containing the failing module. -/
def fsBad : FS := ⟨Except.ok (), fun _ => Except.ok (), [badFile]⟩

/-- Witness for C4: one failing import makes the whole startup reject. -/
theorem C4_load_failure_fatal_witness :
    (∃ e', fetchComponents fsBad = Except.error e') ∧
      ∃ e', setupComponents fsBad = Except.error e' :=
  C4_load_failure_fatal fsBad badFile "boom" rfl (by simp [fsBad]) rfl

/-- Claim C6: when the root components directory does not exist, the
loader returns an empty registry after the non-fatal missing-directory
warning, and setupComponents still succeeds, returning the dispatcher
closed over the empty registry — which resolves every event with the
non-fatal not-found outcome. -/
theorem C6_missing_root (fs : FS)
    (h : fs.rootProbe = Except.error FsError.notFound) :
    fetchComponents fs = Except.ok ([], [LogMsg.missingRootDir]) ∧
      setupComponents fs = Except.ok (runComponent []) ∧
      ∀ i, runComponent [] i = DispatchOutcome.notFound i.data.custom_id := by
  have h1 : fetchComponents fs = Except.ok ([], [LogMsg.missingRootDir]) := by
    simp [fetchComponents, h]
  refine ⟨h1, by simp [setupComponents, h1], ?_⟩
  intro i
  simp [runComponent]

/-- A filesystem whose root probe raises Deno.errors.NotFound. -/
def fsMissing : FS := ⟨Except.error FsError.notFound, fun _ => Except.ok (), []⟩

/-- Witness for C6 on a concrete missing-root filesystem. -/
theorem C6_missing_root_witness :
    fetchComponents fsMissing = Except.ok ([], [LogMsg.missingRootDir]) ∧
      setupComponents fsMissing = Except.ok (runComponent []) ∧
      runComponent [] ⟨⟨"q", some 2⟩⟩ = DispatchOutcome.notFound "q" := by
  have h := C6_missing_root fsMissing rfl
  exact ⟨h.1, h.2.1, h.2.2 ⟨⟨"q", some 2⟩⟩⟩

/-- Claim C7: a walked file whose third path segment is absent or not one
of the three category names contributes no record: the loop leaves the
accumulated registry unchanged, appends one non-fatal unknown-category
warning naming the file, and continues with the remaining files. -/
theorem C7_unknown_category_skip (f : FileEntry) (rest : List FileEntry)
    (acc : List Component) (logs : List LogMsg) (cb : Interaction → HandlerResult)
    (himp : f.importResult = Except.ok cb)
    (hcat : ∀ category, categoryOf f = some category →
      validComponentCategories.contains category = false) :
    loadFiles (f :: rest) acc logs =
      loadFiles rest acc (logs ++ [LogMsg.unknownCategory (nameHead f.name)]) := by
  cases hc : categoryOf f with
  | none => simp [loadFiles, himp, hc]
  | some category =>
    have hval := hcat category hc
    simp only [loadFiles, himp, hc]
    rw [if_neg (by simpa using hval)]

/-- A source file placed directly under the root: its third path segment
is its own base name, not a category. -/
def fRoot : FileEntry :=
  ⟨"src/components/foo.ts", "foo.ts", Except.ok (fun _ => HandlerResult.success)⟩

/-- Witness for C7: the root-level file is skipped with a warning. -/
theorem C7_unknown_category_skip_witness :
    loadFiles [fRoot] [] [] =
      loadFiles [] [] ([] ++ [LogMsg.unknownCategory "foo"]) := by
  refine C7_unknown_category_skip fRoot [] [] [] (fun _ => HandlerResult.success) rfl ?_
  intro category hc
  have h2 : (some "foo.ts" : Option String) = some category :=
    Eq.trans (show (some "foo.ts" : Option String) = categoryOf fRoot from rfl) hc
  injection h2 with h3
  subst h3
  decide

/-- A walked file whose base name contains a dot before the extension. -/
def fooBarFile : FileEntry :=
  ⟨"src/components/buttons/foo.bar.ts", "foo.bar.ts",
    Except.ok (fun _ => HandlerResult.success)⟩

/-- A filesystem whose walk yields only fooBarFile. -/
def fsFooBar : FS := ⟨Except.ok (), fun _ => Except.ok (), [fooBarFile]⟩

/-- Counterexample to claim C9 as stated: the claim says a file named
"foo.bar.ts" yields the registry name "foo.bar" (extension stripped), but
the source derives the name with file.name.split(".")[0], so the registry
record for that file is named "foo". -/
theorem C9_counterexample :
    (fetchComponents fsFooBar).map (fun p => p.1.map Component.name) =
      Except.ok ["foo"] ∧ ("foo" : String) ≠ "foo.bar" :=
  ⟨rfl, by decide⟩

/-- Claim C9 as amended: every registry record's name is the portion of
some walked file's base name before the first dot (file.name.split(".")[0]),
which strips the extension only for single-dot names; "foo.bar.ts" yields
"foo", not "foo.bar". -/
theorem C9_name_before_first_dot (fs : FS) (comps : List Component)
    (logs : List LogMsg) (h : fetchComponents fs = Except.ok (comps, logs)) :
    ∀ c ∈ comps, ∃ f ∈ fs.files, c.name = nameHead f.name := by
  intro c hc
  simp only [fetchComponents] at h
  split at h
  · simp only [Except.ok.injEq, Prod.mk.injEq] at h
    rw [← h.1] at hc
    simp at hc
  · have hcomps := loadFiles_ok_comps h
    rw [hcomps] at hc
    rcases mem_dedupInto hc with h' | h'
    · simp at h'
    · exact name_of_mem_derivedRecords h'

/-- The record the loader builds from fooBarFile. -/
def compFoo : Component :=
  { name := "foo", category := "buttons", callback := fun _ => HandlerResult.success }

/-- Witness for the amended C9 at the concrete multi-dot file. -/
theorem C9_name_before_first_dot_witness :
    ∃ f ∈ fsFooBar.files, ("foo" : String) = nameHead f.name := by
  have h := C9_name_before_first_dot fsFooBar [compFoo] [] rfl
  exact h compFoo (by simp)

/-- Claim C10: every error from probing the root directory — not only
not-found — makes the loader return an empty registry while startup still
succeeds; the missing-directory warning is emitted only for the not-found
error, so any other failure yields an empty registry with no diagnostic
at all. -/
theorem C10_any_probe_error (fs : FS) (e : FsError)
    (h : fs.rootProbe = Except.error e) :
    (e = FsError.notFound →
      fetchComponents fs = Except.ok ([], [LogMsg.missingRootDir])) ∧
      (e ≠ FsError.notFound → fetchComponents fs = Except.ok ([], [])) ∧
      setupComponents fs = Except.ok (runComponent []) := by
  refine ⟨fun he => by simp [fetchComponents, h, he],
    fun he => by simp [fetchComponents, h, he], ?_⟩
  by_cases he : e = FsError.notFound <;>
    simp [setupComponents, fetchComponents, h, he]

/-- A filesystem whose root probe raises a non-not-found error. -/
def fsDenied : FS :=
  ⟨Except.error (FsError.other "permission denied"), fun _ => Except.ok (), []⟩

/-- Witness for C10 on a permission-denied probe: empty registry, no
warning, startup succeeds. -/
theorem C10_any_probe_error_witness :
    fetchComponents fsDenied = Except.ok ([], []) ∧
      setupComponents fsDenied = Except.ok (runComponent []) := by
  have h := C10_any_probe_error fsDenied (FsError.other "permission denied") rfl
  exact ⟨h.2.1 (by simp), h.2.2⟩

end HttpDiscord
